import Mathlib

/-!
Verification of the PocketBase hook layer (pb_hooks/main.pb.js and
pb_hooks/utils.js): CIDR arithmetic, the log-ingestion handler and the two
auth-with-ip handler variants, shallowly embedded in Lean.

JavaScript strings are modelled as `List Char`; JavaScript numbers as
`Option JRat` (`none` is NaN, `some q` an exact rational).  The model is
exact-rational: it ignores IEEE-754 rounding and infinities, which only
diverge from real JS on inputs far outside anything exercised here
(numeric strings beyond 2^53, exponents beyond the float range).
-/

/-- An unnormalised rational `num / den`, used to model a JavaScript number.
Every operation below keeps `den` positive. -/
structure JRat where
  num : Int
  den : Nat
deriving DecidableEq, Repr

/-- A JavaScript number: `none` is NaN. -/
def JSNum : Type := Option JRat

instance : DecidableEq JSNum := inferInstanceAs (DecidableEq (Option JRat))

/-- The JS number holding a natural number. -/
def jn (n : Nat) : JSNum := some ⟨(n : Int), 1⟩

/-- Truncation toward zero (the `ToIntegerOrInfinity` step of `ToInt32` /
`ToUint32`). -/
def jsTrunc (q : JRat) : Int := q.num.tdiv (q.den : Int)

/-- ECMAScript `ToUint32`: truncate toward zero, then reduce mod 2^32 into
`[0, 2^32)`.  `ToUint32(NaN) = 0`. -/
def toUint32 : JSNum → Nat
  | none => 0
  | some q => ((jsTrunc q) % 4294967296).toNat

/-- The JS number whose value is the signed 32-bit reading of the bit
pattern `n` (with `n < 2^32`): the result of any `Int32`-producing JS
operator. -/
def jn32signed (n : Nat) : JSNum :=
  some ⟨if n < 2147483648 then (n : Int) else (n : Int) - 4294967296, 1⟩

/-- JS `+` on numbers (NaN-propagating; exact, see header). -/
def jsAdd : JSNum → JSNum → JSNum
  | some a, some b => some ⟨a.num * (b.den : Int) + b.num * (a.den : Int), a.den * b.den⟩
  | _, _ => none

/-- JS binary `-` on numbers. -/
def jsSub : JSNum → JSNum → JSNum
  | some a, some b => some ⟨a.num * (b.den : Int) - b.num * (a.den : Int), a.den * b.den⟩
  | _, _ => none

/-- JS `**` (only ever applied to base 2 in the source).  A non-integer
exponent would produce an irrational value; the model returns NaN there,
a corner unreachable from the source's call site (`Number(bits)` is an
integer or NaN). `0 ** negative` (= Infinity) is likewise mapped to NaN. -/
def jsPow : JSNum → JSNum → JSNum
  | some a, some b =>
    if b.num % (b.den : Int) = 0 then
      if 0 ≤ b.num then
        some ⟨a.num ^ (b.num.tdiv (b.den : Int)).toNat, a.den ^ (b.num.tdiv (b.den : Int)).toNat⟩
      else if a.num = 0 then none
      else
        some ⟨(a.den : Int) ^ (-(b.num.tdiv (b.den : Int))).toNat * a.num.sign ^ (-(b.num.tdiv (b.den : Int))).toNat,
              a.num.natAbs ^ (-(b.num.tdiv (b.den : Int))).toNat⟩
    else none
  | _, _ => none

/-- JS `x << 8`: `ToInt32(x)` shifted left by 8, read back as a signed
32-bit integer.  On bit patterns this is `* 256` mod 2^32. -/
def jsShl8 (x : JSNum) : JSNum := jn32signed ((toUint32 x * 256) % 4294967296)

/-- JS `x & y` (signed 32-bit result, computed on the bit patterns). -/
def jsAnd (x y : JSNum) : JSNum := jn32signed (toUint32 x &&& toUint32 y)

/-- JS `x | y` (signed 32-bit result). -/
def jsOr (x y : JSNum) : JSNum := jn32signed (toUint32 x ||| toUint32 y)

/-- JS `~x`: complement of the 32-bit pattern, read signed. -/
def jsNot (x : JSNum) : JSNum := jn32signed (4294967295 - toUint32 x)

/-- JS `x >>> 0`: the unsigned 32-bit value of `x` as a number. -/
def jsUshr0 (x : JSNum) : JSNum := jn (toUint32 x)

/-- Split a character list at every occurrence of `sep`, keeping empty
segments — the semantics of JS `String.prototype.split` with a one-char
separator (`"".split(x) = [""]`). -/
def splitChar (sep : Char) : List Char → List (List Char)
  | [] => [[]]
  | c :: cs =>
    match splitChar sep cs with
    | [] => [[]]
    | r :: rs => if c = sep then [] :: r :: rs else (c :: r) :: rs

/-- Decimal digit test, `'0'..'9'`. -/
def isDigitChar (c : Char) : Bool := 48 ≤ c.toNat && c.toNat ≤ 57

/-- Whitespace recognised by JS `parseInt` / `Number` (the common subset). -/
def jsIsWhitespace (c : Char) : Bool :=
  c = ' ' || c = '\t' || c = '\n' || c = '\r'

/-- The character of a decimal digit. -/
def digitChar (d : Nat) : Char := Char.ofNat (48 + d)

/-- Decimal rendering of a natural number, fuel-indexed so that it is
structurally recursive (hence kernel-reducible).  `natToDec` supplies
enough fuel. -/
def natToDecAux : Nat → Nat → List Char
  | 0, _ => []
  | fuel + 1, n =>
    if n < 10 then [digitChar n]
    else natToDecAux fuel (n / 10) ++ [digitChar (n % 10)]

/-- Decimal rendering of a natural number — JS `String(n)` for a
non-negative integer. -/
def natToDec (n : Nat) : List Char := natToDecAux (n + 1) n

/-- Value of a list of decimal digit characters. -/
def decVal (ds : List Char) : Nat :=
  ds.foldl (fun a c => 10 * a + (c.toNat - 48)) 0

/-- Longest digit run at the front, as a number; `none` when there is no
digit — the digit-consuming core of `parseInt`. -/
def parseDigitRun (l : List Char) : Option Nat :=
  match l.takeWhile isDigitChar with
  | [] => none
  | ds => some (decVal ds)

/-- JS `parseInt(s, 10)`: skip leading whitespace, optional sign, longest
digit run; NaN when no digits follow. -/
def jsParseInt (s : List Char) : JSNum :=
  match s.dropWhile jsIsWhitespace with
  | [] => none
  | c :: rest =>
    if c = '-' then (parseDigitRun rest).map (fun n => ⟨-(n : Int), 1⟩)
    else if c = '+' then (parseDigitRun rest).map (fun n => ⟨(n : Int), 1⟩)
    else (parseDigitRun (c :: rest)).map (fun n => ⟨(n : Int), 1⟩)

/-- Trim JS whitespace from both ends. -/
def jsTrim (s : List Char) : List Char :=
  ((s.dropWhile jsIsWhitespace).reverse.dropWhile jsIsWhitespace).reverse

/-- JS `Number(s)` restricted to the decimal-integer fragment: empty or
all-whitespace gives 0, an optionally signed digit string its value,
anything else NaN.  (Float/hex/exponent syntaxes, which the source never
reaches with well-formed CIDR input, are mapped to NaN.) -/
def jsNumberStr (s : List Char) : JSNum :=
  match jsTrim s with
  | [] => jn 0
  | c :: rest =>
    if c = '-' then
      if rest ≠ [] ∧ rest.all isDigitChar then some ⟨-((decVal rest : Nat) : Int), 1⟩ else none
    else if c = '+' then
      if rest ≠ [] ∧ rest.all isDigitChar then some ⟨((decVal rest : Nat) : Int), 1⟩ else none
    else
      if (c :: rest).all isDigitChar then some ⟨((decVal (c :: rest) : Nat) : Int), 1⟩ else none

/-- JS `Number(x)` where `x` is a string or `undefined` (the two shapes
that reach it in `cidrToRange`); `Number(undefined) = NaN`. -/
def jsNumberOf : Option (List Char) → JSNum
  | none => none
  | some s => jsNumberStr s

/-- The reducer body of `ipToInt`:
`(int, octet) => (int << 8) + parseInt(octet, 10)`. -/
def ipAccum (int : JSNum) (octet : List Char) : JSNum :=
  jsAdd (jsShl8 int) (jsParseInt octet)

/-- `ipToInt` from pb_hooks (main.pb.js lines 25-27, utils.js lines 25-27):
`ip.split(".").reduce((int, octet) => (int << 8) + parseInt(octet, 10), 0) >>> 0`.
The result is the final `>>> 0`, i.e. an unsigned 32-bit value. -/
def ipToInt (ip : List Char) : Nat :=
  toUint32 ((splitChar '.' ip).foldl ipAccum (jn 0))

/-- `intToIp` from pb_hooks (main.pb.js lines 35-37):
`[(int >>> 24) & 255, (int >>> 16) & 255, (int >>> 8) & 255, int & 255].join(".")`.
On the unsigned value `n = ToUint32(int)`, `(int >>> k) & 255` is
`n / 2^k % 256`. -/
def intToIp (int : JSNum) : List Char :=
  natToDec (toUint32 int / 16777216 % 256) ++
    '.' :: (natToDec (toUint32 int / 65536 % 256) ++
      '.' :: (natToDec (toUint32 int / 256 % 256) ++
        '.' :: natToDec (toUint32 int % 256)))

/-- `cidrToRange` from pb_hooks (main.pb.js lines 45-52):
splits on "/", computes `mask = ~(2 ** (32 - Number(bits)) - 1) >>> 0`,
`network = ipInt & mask`, `broadcast = network | (~mask >>> 0)`.
`bits` is the second split segment, `undefined` when there is none. -/
def cidrToRange (cidr : List Char) : List Char × List Char :=
  let parts := splitChar '/' cidr
  let ip := parts.headD []
  let bits := parts.get? 1
  let ipInt := jn (ipToInt ip)
  let mask := jsUshr0 (jsNot (jsSub (jsPow (jn 2) (jsSub (jn 32) (jsNumberOf bits))) (jn 1)))
  let network := jsAnd ipInt mask
  let broadcast := jsOr network (jsUshr0 (jsNot mask))
  (intToIp network, intToIp broadcast)

/-- `ipInCidr` from pb_hooks (main.pb.js lines 61-65): true iff
`ipToInt(ip)` lies between `ipToInt` of the two ends of `cidrToRange(cidr)`. -/
def ipInCidr (ip cidr : List Char) : Bool :=
  decide (ipToInt (cidrToRange cidr).1 ≤ ipToInt ip) &&
    decide (ipToInt ip ≤ ipToInt (cidrToRange cidr).2)

/-- Shorthand for string literals as character lists. -/
def chars (s : String) : List Char := s.toList

/-- The canonical dotted-quad string of four octet values (statement
helper: for `a b c d ≤ 255` these are exactly the canonical IPv4
strings). -/
def quadStr (a b c d : Nat) : List Char :=
  natToDec a ++ '.' :: (natToDec b ++ '.' :: (natToDec c ++ '.' :: natToDec d))

/-- The big-endian 32-bit packing of four octets. -/
def packIp (a b c d : Nat) : Nat := a * 16777216 + b * 65536 + c * 256 + d

/-- A JavaScript value as seen by the handlers (the shapes a parsed JSON
request body, a record field, or a path segment can take). -/
inductive JSValue where
  | undefined : JSValue
  | null : JSValue
  | bool : Bool → JSValue
  | num : JSNum → JSValue
  | str : List Char → JSValue
  | arr : List JSValue → JSValue
  | obj : List (List Char × JSValue) → JSValue

/-- JS truthiness: `undefined`, `null`, `false`, `±0`, `NaN` and `""` are
falsy; objects and arrays are always truthy. -/
def jsTruthy : JSValue → Bool
  | .undefined => false
  | .null => false
  | .bool b => b
  | .num none => false
  | .num (some q) => !(q.num = 0)
  | .str s => !s.isEmpty
  | .arr _ => true
  | .obj _ => true

/-- JS `typeof`. -/
def jsTypeof : JSValue → List Char
  | .undefined => chars "undefined"
  | .null => chars "object"
  | .bool _ => chars "boolean"
  | .num _ => chars "number"
  | .str _ => chars "string"
  | .arr _ => chars "object"
  | .obj _ => chars "object"

/-- Property read `v.name`: field lookup on an object, `undefined`
otherwise.  (Reading a property of `null`/`undefined` throws in JS; the
theorems below only instantiate object-shaped bodies, where the model is
exact.) -/
def JSValue.getField (v : JSValue) (name : List Char) : JSValue :=
  match v with
  | .obj fs =>
    match fs.find? (fun kv => kv.1 == name) with
    | some kv => kv.2
    | none => .undefined
  | _ => .undefined

/-- `Array.isArray`. -/
def jsIsArray : JSValue → Bool
  | .arr _ => true
  | _ => false

/-- `Object.entries` on an object value (insertion order; the JS
reordering of integer-like keys is not modelled — no claim depends on
entry order). -/
def objEntries : JSValue → List (List Char × JSValue)
  | .obj fs => fs
  | _ => []

/-- The four logging sinks. -/
inductive Level where
  | debug | info | warn | error
deriving DecidableEq, Repr

/-- The level keyword of each sink. -/
def levelStr : Level → List Char
  | .debug => chars "debug"
  | .info => chars "info"
  | .warn => chars "warn"
  | .error => chars "error"

/-- Classification of `json.level` against `["debug","info","warn","error"]`
by strict equality — `some lv` exactly when `indexOf(json.level) !== -1`,
and then `lv` is the switch case that fires. -/
def levelIndexOf : JSValue → Option Level
  | .str s =>
    if s == chars "debug" then some .debug
    else if s == chars "info" then some .info
    else if s == chars "warn" then some .warn
    else if s == chars "error" then some .error
    else none
  | _ => none

/-- `Object.entries(data).flat()`: the pair arrays concatenated into one
alternating key/value sequence (depth-1 flatten). -/
def logFlat (entries : List (List Char × JSValue)) : List JSValue :=
  (entries.map (fun kv => [JSValue.str kv.1, kv.2])).flatten

/-- One emission to a logging sink: `logger().<level>(message, ...entries)`. -/
structure LogEmit where
  level : Level
  message : JSValue
  args : List JSValue

/-- The HTTP response of the log handler. -/
inductive LogResponse where
  | badRequest : List Char → JSValue → LogResponse
  | noContent : Nat → LogResponse

/-- Response plus the logging side effects of one request. -/
structure LogOutcome where
  response : LogResponse
  emits : List LogEmit

/-- The `POST /api/logs` handler body (main.pb.js lines 78-129), as a
function of the parsed request body.  The privileged-caller gate
(`$apis.requireSuperuserAuth()`) is an external collaborator that runs
before this body and is not modelled.  `e.noContent(201)` is the empty
201 response. -/
def logsHandler (json : JSValue) : LogOutcome :=
  if (levelIndexOf (json.getField (chars "level"))).isNone then
    ⟨.badRequest (chars "Log level must be one of: debug, info, warn, error.")
      (json.getField (chars "level")), []⟩
  else if !jsTruthy (json.getField (chars "message")) ||
      jsTypeof (json.getField (chars "message")) != chars "string" then
    ⟨.badRequest (chars "Log message must be a string.") (json.getField (chars "message")), []⟩
  else if !jsTruthy (json.getField (chars "data")) ||
      jsTypeof (json.getField (chars "data")) != chars "object" ||
      jsIsArray (json.getField (chars "data")) then
    ⟨.badRequest (chars "Log data must be an object.") (json.getField (chars "data")), []⟩
  else if (objEntries (json.getField (chars "data"))).length == 0 then
    ⟨.badRequest (chars "Log data must not be empty.") (json.getField (chars "data")), []⟩
  else
    match levelIndexOf (json.getField (chars "level")) with
    | some lv =>
      ⟨.noContent 201,
        [⟨lv, json.getField (chars "message"), logFlat (objEntries (json.getField (chars "data")))⟩]⟩
    | none =>
      ⟨.badRequest (chars "Unknown log level.") (json.getField (chars "level")), []⟩

/-- Whitespace accepted between JSON tokens. -/
def jsonWsChar (c : Char) : Bool := c = ' ' || c = '\t' || c = '\n' || c = '\r'

/-- Skip JSON whitespace. -/
def skipJsonWs (l : List Char) : List Char := l.dropWhile jsonWsChar

/-- Value of one hexadecimal digit. -/
def hexVal (c : Char) : Option Nat :=
  if isDigitChar c then some (c.toNat - 48)
  else if 97 ≤ c.toNat && c.toNat ≤ 102 then some (c.toNat - 87)
  else if 65 ≤ c.toNat && c.toNat ≤ 70 then some (c.toNat - 55)
  else none

/-- The character named by a one-letter JSON escape. -/
def escapeOf (e : Char) : Option Char :=
  if e = '"' then some '"'
  else if e = '\\' then some '\\'
  else if e = '/' then some '/'
  else if e = 'b' then some (Char.ofNat 8)
  else if e = 'f' then some (Char.ofNat 12)
  else if e = 'n' then some '\n'
  else if e = 'r' then some '\r'
  else if e = 't' then some '\t'
  else none

/-- Body of a JSON string after the opening quote: the decoded characters
and the remainder after the closing quote.  (A `\u` escape denoting a
lone surrogate half, which is not a valid `Char`, decodes to `'\0'` —
irrelevant to every input considered here.) -/
def parseStringBody : Nat → List Char → Option (List Char × List Char)
  | 0, _ => none
  | fuel + 1, l =>
    match l with
    | [] => none
    | c :: rest =>
      if c = '"' then some ([], rest)
      else if c = '\\' then
        match rest with
        | [] => none
        | e :: rest2 =>
          if e = 'u' then
            match rest2 with
            | h1 :: h2 :: h3 :: h4 :: rest3 =>
              match hexVal h1, hexVal h2, hexVal h3, hexVal h4 with
              | some a, some b, some c3, some d =>
                (parseStringBody fuel rest3).map
                  (fun r => (Char.ofNat (a * 4096 + b * 256 + c3 * 16 + d) :: r.1, r.2))
              | _, _, _, _ => none
            | _ => none
          else
            match escapeOf e with
            | some ec => (parseStringBody fuel rest2).map (fun r => (ec :: r.1, r.2))
            | none => none
      else (parseStringBody fuel rest).map (fun r => (c :: r.1, r.2))

/-- Exponent suffix of a JSON number, applied to the value parsed so far. -/
def parseJsonExp (q : JRat) (l : List Char) : Option (JRat × List Char) :=
  match l with
  | c :: rest =>
    if c = 'e' || c = 'E' then
      match rest with
      | s :: r2 =>
        if s = '-' then
          match r2.takeWhile isDigitChar with
          | [] => none
          | ds => some (⟨q.num, q.den * 10 ^ decVal ds⟩, r2.drop ds.length)
        else if s = '+' then
          match r2.takeWhile isDigitChar with
          | [] => none
          | ds => some (⟨q.num * 10 ^ decVal ds, q.den⟩, r2.drop ds.length)
        else
          match rest.takeWhile isDigitChar with
          | [] => none
          | ds => some (⟨q.num * 10 ^ decVal ds, q.den⟩, rest.drop ds.length)
      | [] => none
    else some (q, l)
  | [] => some (q, [])

/-- Unsigned part of a JSON number: digits, optional fraction, optional
exponent (exact rational value). -/
def parseJsonNumBody (l : List Char) : Option (JRat × List Char) :=
  match l.takeWhile isDigitChar with
  | [] => none
  | ds =>
    match l.drop ds.length with
    | '.' :: r2 =>
      match r2.takeWhile isDigitChar with
      | [] => none
      | fs =>
        parseJsonExp ⟨(decVal ds : Int) * 10 ^ fs.length + (decVal fs : Int), 10 ^ fs.length⟩
          (r2.drop fs.length)
    | rest1 => parseJsonExp ⟨(decVal ds : Int), 1⟩ rest1

/-- A JSON number, with optional leading minus. -/
def parseJsonNumber (l : List Char) : Option (JRat × List Char) :=
  match l with
  | '-' :: rest => (parseJsonNumBody rest).map (fun r => (⟨-r.1.num, r.1.den⟩, r.2))
  | _ => parseJsonNumBody l

mutual

/-- One JSON value and the unconsumed remainder (fuel-indexed). -/
def parseJsonValue : Nat → List Char → Option (JSValue × List Char)
  | 0, _ => none
  | fuel + 1, l =>
    match skipJsonWs l with
    | [] => none
    | c :: rest =>
      if c = '"' then (parseStringBody (rest.length + 1) rest).map (fun r => (.str r.1, r.2))
      else if c = Char.ofNat 123 then
        match skipJsonWs rest with
        | c2 :: r2 =>
          if c2 = Char.ofNat 125 then some (.obj [], r2)
          else (parseJsonMembers fuel (c2 :: r2)).map (fun r => (.obj r.1, r.2))
        | [] => none
      else if c = '[' then
        match skipJsonWs rest with
        | ']' :: r2 => some (.arr [], r2)
        | r2 => (parseJsonElems fuel r2).map (fun r => (.arr r.1, r.2))
      else if c = 't' then
        match rest with
        | 'r' :: 'u' :: 'e' :: r2 => some (.bool true, r2)
        | _ => none
      else if c = 'f' then
        match rest with
        | 'a' :: 'l' :: 's' :: 'e' :: r2 => some (.bool false, r2)
        | _ => none
      else if c = 'n' then
        match rest with
        | 'u' :: 'l' :: 'l' :: r2 => some (.null, r2)
        | _ => none
      else (parseJsonNumber (c :: rest)).map (fun r => (.num (some r.1), r.2))

/-- `value (, value)* ]` — the non-empty tail of a JSON array. -/
def parseJsonElems : Nat → List Char → Option (List JSValue × List Char)
  | 0, _ => none
  | fuel + 1, l =>
    match parseJsonValue fuel l with
    | none => none
    | some (v, rest) =>
      match skipJsonWs rest with
      | ']' :: r2 => some ([v], r2)
      | ',' :: r2 =>
        match parseJsonElems fuel r2 with
        | some (vs, r3) => some (v :: vs, r3)
        | none => none
      | _ => none

/-- `"key" : value (, "key" : value)* \x7d` — the non-empty tail of a JSON
object. -/
def parseJsonMembers : Nat → List Char → Option (List (List Char × JSValue) × List Char)
  | 0, _ => none
  | fuel + 1, l =>
    match skipJsonWs l with
    | '"' :: rest =>
      match parseStringBody (rest.length + 1) rest with
      | none => none
      | some (key, r2) =>
        match skipJsonWs r2 with
        | ':' :: r3 =>
          match parseJsonValue fuel r3 with
          | none => none
          | some (v, r4) =>
            match skipJsonWs r4 with
            | c5 :: r5 =>
              if c5 = Char.ofNat 125 then some ([(key, v)], r5)
              else if c5 = ',' then
                match parseJsonMembers fuel r5 with
                | some (ms, r6) => some ((key, v) :: ms, r6)
                | none => none
              else none
            | [] => none
        | _ => none
    | _ => none

end

/-- `JSON.parse(s)`: `some v` on success, `none` when the JS call would
throw a SyntaxError (trailing garbage included). -/
def jsonParse (s : List Char) : Option JSValue :=
  match parseJsonValue (s.length + 1) s with
  | some (v, rest) => if (skipJsonWs rest).isEmpty then some v else none
  | none => none

/-- The slice of a PocketBase collection the handlers read: whether it is
an auth collection, and its field names. -/
structure PbCollection where
  isAuth : Bool
  fields : List (List Char)

/-- The slice of a PocketBase record the handlers read: `record.get(name)`
(the typed field value) and `record.getString(name)` (its string form). -/
structure PbRecord where
  get : JSValue → JSValue
  getString : JSValue → List Char

/-- The host platform as the handlers see it.  `findCollection` models
`findCachedCollectionByNameOrId` (`none` = the host call throws),
`findRecord` models `findFirstRecordByData` (`none` = throws / no row),
`realIP` the trusted-proxy-aware client address. -/
structure AuthEnv where
  findCollection : List Char → Option PbCollection
  findRecord : PbCollection → JSValue → JSValue → Option PbRecord
  realIP : List Char

/-- An auth-with-ip request: parsed JSON body plus the `{collection}` path
segment (already passed through the source's `|| ""`, which is the
identity on strings). -/
structure AuthRequest where
  body : JSValue
  pathCollection : List Char

/-- Calls the handler makes into the host platform, in order.  These are
the only collaborator touch points in the source; none of them creates,
mutates or deletes a record or collection — `issueSession` is
`$apis.recordAuthResponse`, which issues a fresh session artifact. -/
inductive HostCall where
  | findCollection : List Char → HostCall
  | findRecord : JSValue → JSValue → HostCall
  | getRealIP : HostCall
  | readField : JSValue → HostCall
  | issueSession : HostCall

/-- The handler's outcome: a classified error response, a successful auth
response, or an uncaught host exception escaping the handler. -/
inductive AuthResponse where
  | badRequest : List Char → JSValue → AuthResponse
  | notFound : List Char → AuthResponse
  | unauthorized : List Char → JSValue → AuthResponse
  | success : JSValue → AuthResponse
  | exception : JSValue → AuthResponse

/-- Discriminator: successful auth response. -/
def AuthResponse.isSuccess : AuthResponse → Bool
  | .success _ => true
  | _ => false

/-- Discriminator: one of the three classified error responses
(validation / not-found / unauthorized). -/
def AuthResponse.isErrorResponse : AuthResponse → Bool
  | .badRequest _ _ => true
  | .notFound _ => true
  | .unauthorized _ _ => true
  | _ => false

/-- Discriminator: unauthorized error. -/
def AuthResponse.isUnauthorized : AuthResponse → Bool
  | .unauthorized _ _ => true
  | _ => false

/-- JS `a ||= b` read back: the value of the field after the defaulting
assignment. -/
def jsOrDefault (v d : JSValue) : JSValue := if jsTruthy v then v else d

/-- `json.identity`. -/
def bodyIdentity (b : JSValue) : JSValue := b.getField (chars "identity")

/-- `json.identityField` after `json.identityField ||= "email"`. -/
def bodyIdentityField (b : JSValue) : JSValue :=
  jsOrDefault (b.getField (chars "identityField")) (.str (chars "email"))

/-- `json.ipsField` after `json.ipsField ||= "ips"`. -/
def bodyIpsField (b : JSValue) : JSValue :=
  jsOrDefault (b.getField (chars "ipsField")) (.str (chars "ips"))

/-- `f.getName() === v` for a schema field name `f` and a JS value `v`
(strict equality: only a string compares equal to a string). -/
def fieldMatches (f : List Char) (v : JSValue) : Bool :=
  match v with
  | .str s => f == s
  | _ => false

/-- The string content of a JS value known to be a string (used where the
source interpolates an already-validated string into a message). -/
def asStr : JSValue → List Char
  | .str s => s
  | _ => []

/-- The interpolated message
`The collection does not have a field named "<x>".` -/
def fieldErrMsg (v : JSValue) : List Char :=
  chars "The collection does not have a field named \"" ++ asStr v ++ chars "\"."

/-- Whether one allow-list entry matches the request IP under the loop
test of both handlers: a CIDR entry (contains "/") by range membership,
any other string by exact equality.  Statement helper for non-string
analysis; the loops themselves are `scanLoose` / `scanStrict`. -/
def entryMatches (requestIp : List Char) (v : JSValue) : Bool :=
  match v with
  | .str s => (s.contains '/' && ipInCidr requestIp s) || s == requestIp
  | _ => false

/-- Result of the allow-list loop. -/
inductive ScanResult where
  | matched : ScanResult
  | exhausted : ScanResult
  | badEntry : JSValue → ScanResult

/-- The allow-list loop of main.pb.js (lines 211-219).  There is no
per-entry type check: for a string entry the two membership tests run; a
non-string entry either throws a TypeError (`ip.includes` is undefined on
numbers/booleans/objects and a property read on null/undefined throws —
and an array containing the string "/" sends the array into `ipInCidr`,
where `ip.split` throws), or, for an array not containing "/", both tests
are false and the loop silently continues. -/
def scanLoose (requestIp : List Char) : List JSValue → ScanResult
  | [] => .exhausted
  | ip :: rest =>
    match ip with
    | .str s =>
      if (s.contains '/' && ipInCidr requestIp s) || s == requestIp then .matched
      else scanLoose requestIp rest
    | .arr xs =>
      if xs.any (fun v => fieldMatches (chars "/") v) then .badEntry (.arr xs)
      else scanLoose requestIp rest
    | other => .badEntry other

/-- The allow-list loop of utils.js (lines 148-160): a non-string entry
returns immediately (fail closed); a string entry is tested as in
`scanLoose`. -/
def scanStrict (requestIp : List Char) : List JSValue → ScanResult
  | [] => .exhausted
  | ip :: rest =>
    match ip with
    | .str s =>
      if (s.contains '/' && ipInCidr requestIp s) || s == requestIp then .matched
      else scanStrict requestIp rest
    | other => .badEntry other

/-- The auth-with-ip handler of main.pb.js (lines 154-226), as a function
of the environment and the request, returning the response and the
ordered trace of host-platform calls.  Error branches mirror the source's
early returns; the `.exception` case is a TypeError thrown out of the
allow-list loop (nothing in the handler catches it). -/
def authHandlerMain (env : AuthEnv) (req : AuthRequest) : AuthResponse × List HostCall :=
  if !jsTruthy (bodyIdentity req.body) || jsTypeof (bodyIdentity req.body) != chars "string" then
    (.badRequest (chars "Missing `identity` field.") (bodyIdentity req.body), [])
  else if jsTypeof (bodyIdentityField req.body) != chars "string" then
    (.badRequest (chars "Invalid `identityField` field.") (bodyIdentityField req.body), [])
  else if jsTypeof (bodyIpsField req.body) != chars "string" then
    (.badRequest (chars "Invalid `ipsField` field.") (bodyIpsField req.body), [])
  else
    match env.findCollection req.pathCollection with
    | none =>
      (.notFound (chars "Missing or invalid auth collection context."),
        [.findCollection req.pathCollection])
    | some collection =>
      if !collection.isAuth then
        (.notFound (chars "Missing or invalid auth collection context."),
          [.findCollection req.pathCollection])
      else if !(collection.fields.any fun f => fieldMatches f (bodyIdentityField req.body)) then
        (.badRequest (fieldErrMsg (bodyIdentityField req.body)) (bodyIdentityField req.body),
          [.findCollection req.pathCollection])
      else if !(collection.fields.any fun f => fieldMatches f (bodyIpsField req.body)) then
        (.badRequest (fieldErrMsg (bodyIpsField req.body)) (bodyIpsField req.body),
          [.findCollection req.pathCollection])
      else
        match env.findRecord collection (bodyIdentityField req.body) (bodyIdentity req.body) with
        | none =>
          (.unauthorized (chars "Invalid identity.") .null,
            [.findCollection req.pathCollection,
             .findRecord (bodyIdentityField req.body) (bodyIdentity req.body)])
        | some record =>
          match record.get (bodyIpsField req.body) with
          | .arr ips =>
            match scanLoose env.realIP ips with
            | .matched =>
              (.success (.str env.realIP),
                [.findCollection req.pathCollection,
                 .findRecord (bodyIdentityField req.body) (bodyIdentity req.body),
                 .getRealIP, .readField (bodyIpsField req.body), .issueSession])
            | .exhausted =>
              (.unauthorized (chars "IP address not found in the record.") (.str env.realIP),
                [.findCollection req.pathCollection,
                 .findRecord (bodyIdentityField req.body) (bodyIdentity req.body),
                 .getRealIP, .readField (bodyIpsField req.body)])
            | .badEntry v =>
              (.exception v,
                [.findCollection req.pathCollection,
                 .findRecord (bodyIdentityField req.body) (bodyIdentity req.body),
                 .getRealIP, .readField (bodyIpsField req.body)])
          | other =>
            -- `if (!ips || !Array.isArray(ips))`: a non-array value (truthy
            -- or not) always takes this branch, an array never does.
            (.unauthorized (chars "Invalid IP address on the record.") other,
              [.findCollection req.pathCollection,
               .findRecord (bodyIdentityField req.body) (bodyIdentity req.body),
               .getRealIP, .readField (bodyIpsField req.body)])

/-- The auth-with-ip handler variant of utils.js (lines 88-170): identical
until the record is found, then reads the allow list with
`JSON.parse(record.getString(ipsField))` under `tryCatch`, and runs the
fail-closed loop `scanStrict`. -/
def authHandlerStrict (env : AuthEnv) (req : AuthRequest) : AuthResponse × List HostCall :=
  if !jsTruthy (bodyIdentity req.body) || jsTypeof (bodyIdentity req.body) != chars "string" then
    (.badRequest (chars "Missing `identity` field.") (bodyIdentity req.body), [])
  else if jsTypeof (bodyIdentityField req.body) != chars "string" then
    (.badRequest (chars "Invalid `identityField` field.") (bodyIdentityField req.body), [])
  else if jsTypeof (bodyIpsField req.body) != chars "string" then
    (.badRequest (chars "Invalid `ipsField` field.") (bodyIpsField req.body), [])
  else
    match env.findCollection req.pathCollection with
    | none =>
      (.notFound (chars "Missing or invalid auth collection context."),
        [.findCollection req.pathCollection])
    | some collection =>
      if !collection.isAuth then
        (.notFound (chars "Missing or invalid auth collection context."),
          [.findCollection req.pathCollection])
      else if !(collection.fields.any fun f => fieldMatches f (bodyIdentityField req.body)) then
        (.badRequest (fieldErrMsg (bodyIdentityField req.body)) (bodyIdentityField req.body),
          [.findCollection req.pathCollection])
      else if !(collection.fields.any fun f => fieldMatches f (bodyIpsField req.body)) then
        (.badRequest (fieldErrMsg (bodyIpsField req.body)) (bodyIpsField req.body),
          [.findCollection req.pathCollection])
      else
        match env.findRecord collection (bodyIdentityField req.body) (bodyIdentity req.body) with
        | none =>
          (.unauthorized (chars "Invalid identity.") .null,
            [.findCollection req.pathCollection,
             .findRecord (bodyIdentityField req.body) (bodyIdentity req.body)])
        | some record =>
          match jsonParse (record.getString (bodyIpsField req.body)) with
          | some (.arr ips) =>
            match scanStrict env.realIP ips with
            | .matched =>
              (.success (.obj [(chars "identity", bodyIdentity req.body),
                               (chars "requestIp", .str env.realIP)]),
                [.findCollection req.pathCollection,
                 .findRecord (bodyIdentityField req.body) (bodyIdentity req.body),
                 .getRealIP, .readField (bodyIpsField req.body), .issueSession])
            | .exhausted =>
              (.unauthorized (chars "Request IP not found in the record.") (.str env.realIP),
                [.findCollection req.pathCollection,
                 .findRecord (bodyIdentityField req.body) (bodyIdentity req.body),
                 .getRealIP, .readField (bodyIpsField req.body)])
            | .badEntry v =>
              (.unauthorized (chars "Invalid IP address on the record.") v,
                [.findCollection req.pathCollection,
                 .findRecord (bodyIdentityField req.body) (bodyIdentity req.body),
                 .getRealIP, .readField (bodyIpsField req.body)])
          | _ =>
            -- `if (ipsError !== null || !Array.isArray(ips))`: parse failure
            -- or a non-array parse result.
            (.unauthorized (chars "Invalid IP list format.") .null,
              [.findCollection req.pathCollection,
               .findRecord (bodyIdentityField req.body) (bodyIdentity req.body),
               .getRealIP, .readField (bodyIpsField req.body)])

/-- Number of session issuances in a host-call trace. -/
def sessionsIssued (t : List HostCall) : Nat :=
  t.countP fun c =>
    match c with
    | .issueSession => true
    | _ => false

/-- An auth collection with the default `email` and `ips` fields
(witness fixture). -/
def demoCollection : PbCollection := ⟨true, [chars "email", chars "ips"]⟩

/-- Record whose allow list holds a non-string first entry (an empty
array) followed by the matching address (witness fixture for the
main.pb.js loop). -/
def c1Record : PbRecord where
  get := fun v =>
    if fieldMatches (chars "ips") v then .arr [.arr [], .str (chars "1.2.3.4")] else .undefined
  getString := fun _ => []

/-- Environment exposing `c1Record` under identity `alice@example.com`
in collection `users`; caller address 1.2.3.4 (witness fixture). -/
def c1Env : AuthEnv where
  findCollection := fun n => if n == chars "users" then some demoCollection else none
  findRecord := fun _ f v =>
    if fieldMatches (chars "email") f && fieldMatches (chars "alice@example.com") v then
      some c1Record
    else none
  realIP := chars "1.2.3.4"

/-- Request authenticating as `alice@example.com` (witness fixture). -/
def c1Req : AuthRequest where
  body := .obj [(chars "identity", .str (chars "alice@example.com"))]
  pathCollection := chars "users"

/-- Record whose stored allow list is the JSON text `[5]` (witness
fixture for the strict variant). -/
def c1sRecord : PbRecord where
  get := fun _ => .undefined
  getString := fun v => if fieldMatches (chars "ips") v then chars "[5]" else []

/-- Environment exposing `c1sRecord` under identity `bob@example.com`
(witness fixture). -/
def c1sEnv : AuthEnv where
  findCollection := fun n => if n == chars "users" then some demoCollection else none
  findRecord := fun _ f v =>
    if fieldMatches (chars "email") f && fieldMatches (chars "bob@example.com") v then
      some c1sRecord
    else none
  realIP := chars "1.2.3.4"

/-- Request authenticating as `bob@example.com` (witness fixture). -/
def c1sReq : AuthRequest where
  body := .obj [(chars "identity", .str (chars "bob@example.com"))]
  pathCollection := chars "users"

/-- Environment with no collections at all (witness fixture). -/
def c8EnvMissing : AuthEnv where
  findCollection := fun _ => none
  findRecord := fun _ _ _ => none
  realIP := chars "1.2.3.4"

/-- Environment whose only collection `users` is not auth-capable
(witness fixture). -/
def c8EnvNonAuth : AuthEnv where
  findCollection := fun n =>
    if n == chars "users" then some ⟨false, [chars "email", chars "ips"]⟩ else none
  findRecord := fun _ _ _ => none
  realIP := chars "1.2.3.4"

/-- A body whose fields pass the three body validations (witness
fixture). -/
def c8Req : AuthRequest where
  body := .obj [(chars "identity", .str (chars "alice@example.com"))]
  pathCollection := chars "users"

/-- A well-formed log request at level `error` (witness fixture,
matching the spec's own example). -/
def c2Json : JSValue :=
  .obj [(chars "level", .str (chars "error")),
        (chars "message", .str (chars "m")),
        (chars "data", .obj [(chars "a", .num (some ⟨1, 1⟩)), (chars "b", .num (some ⟨2, 1⟩))])]

/-- A log request with the unknown level `trace` (witness fixture,
matching the spec's own example). -/
def c3Json : JSValue :=
  .obj [(chars "level", .str (chars "trace")),
        (chars "message", .str (chars "hi")),
        (chars "data", .obj [(chars "a", .num (some ⟨1, 1⟩))])]

theorem splitChar_ne_nil (sep : Char) (l : List Char) : splitChar sep l ≠ [] := by
  cases l with
  | nil => simp [splitChar]
  | cons c cs =>
    rw [splitChar]
    cases h : splitChar sep cs with
    | nil => simp
    | cons r rs => by_cases hc : c = sep <;> simp [hc]

theorem splitChar_sepFree (sep : Char) (l : List Char) (h : ∀ c ∈ l, ¬ c = sep) :
    splitChar sep l = [l] := by
  induction l with
  | nil => rfl
  | cons c cs ih =>
    have hc : ¬ c = sep := h c (by simp)
    have : splitChar sep cs = [cs] := ih (fun x hx => h x (by simp [hx]))
    simp [splitChar, this, hc]

theorem splitChar_append (sep : Char) (l1 l2 : List Char) (h : ∀ c ∈ l1, ¬ c = sep) :
    splitChar sep (l1 ++ sep :: l2) = l1 :: splitChar sep l2 := by
  induction l1 with
  | nil =>
    simp only [List.nil_append, splitChar]
    cases h2 : splitChar sep l2 with
    | nil => exact absurd h2 (splitChar_ne_nil sep l2)
    | cons r rs => simp
  | cons c cs ih =>
    have hc : ¬ c = sep := h c (by simp)
    have htail := ih (fun x hx => h x (by simp [hx]))
    rw [List.cons_append, splitChar, htail]
    simp [hc]

theorem digitChar_toNat (d : Nat) (h : d < 10) : (digitChar d).toNat = 48 + d := by
  interval_cases d <;> decide

theorem isDigitChar_digitChar (d : Nat) (h : d < 10) : isDigitChar (digitChar d) = true := by
  interval_cases d <;> decide

theorem natToDecAux_digits (fuel n : Nat) (h : n < fuel) :
    ∀ c ∈ natToDecAux fuel n, isDigitChar c = true := by
  induction fuel generalizing n with
  | zero => omega
  | succ fuel ih =>
    intro c hc
    simp only [natToDecAux] at hc
    split at hc
    · simp at hc
      subst hc
      exact isDigitChar_digitChar n (by omega)
    · rename_i hn
      rcases List.mem_append.1 hc with h1 | h2
      · exact ih (n / 10) (by omega) c h1
      · simp at h2
        subst h2
        exact isDigitChar_digitChar (n % 10) (by omega)

theorem natToDecAux_ne_nil (fuel n : Nat) (h : n < fuel) : natToDecAux fuel n ≠ [] := by
  cases fuel with
  | zero => omega
  | succ fuel =>
    simp only [natToDecAux]
    split <;> simp

theorem decVal_append_digit (ds : List Char) (c : Char) :
    decVal (ds ++ [c]) = 10 * decVal ds + (c.toNat - 48) := by
  simp [decVal, List.foldl_append]

theorem decVal_natToDecAux (fuel n : Nat) (h : n < fuel) :
    decVal (natToDecAux fuel n) = n := by
  induction fuel generalizing n with
  | zero => omega
  | succ fuel ih =>
    simp only [natToDecAux]
    split
    · rename_i hn
      simp [decVal, digitChar_toNat n hn]
    · rename_i hn
      rw [decVal_append_digit, ih (n / 10) (by omega), digitChar_toNat (n % 10) (by omega)]
      omega

theorem natToDec_digits (n : Nat) : ∀ c ∈ natToDec n, isDigitChar c = true :=
  natToDecAux_digits (n + 1) n (by omega)

theorem natToDec_ne_nil (n : Nat) : natToDec n ≠ [] :=
  natToDecAux_ne_nil (n + 1) n (by omega)

theorem decVal_natToDec (n : Nat) : decVal (natToDec n) = n :=
  decVal_natToDecAux (n + 1) n (by omega)

theorem digit_ne (c : Char) (h : isDigitChar c = true) (x : Char)
    (hx : (48 ≤ x.toNat && x.toNat ≤ 57) = false) : ¬ c = x := by
  intro hc
  subst hc
  rw [isDigitChar] at h
  rw [h] at hx
  exact absurd hx (by simp)

theorem digit_not_special (c : Char) (h : isDigitChar c = true) :
    ¬ c = '.' ∧ ¬ c = '/' ∧ ¬ c = '-' ∧ ¬ c = '+' ∧ jsIsWhitespace c = false := by
  have h1 := digit_ne c h ' ' (by decide)
  have h2 := digit_ne c h '\t' (by decide)
  have h3 := digit_ne c h '\n' (by decide)
  have h4 := digit_ne c h '\r' (by decide)
  refine ⟨digit_ne c h '.' (by decide), digit_ne c h '/' (by decide),
          digit_ne c h '-' (by decide), digit_ne c h '+' (by decide), ?_⟩
  simp [jsIsWhitespace, h1, h2, h3, h4]

theorem takeWhile_all {p : Char → Bool} (l : List Char) (h : ∀ c ∈ l, p c = true) :
    l.takeWhile p = l := by
  induction l with
  | nil => rfl
  | cons c cs ih =>
    simp only [List.takeWhile_cons, h c (by simp)]
    simp [ih (fun x hx => h x (by simp [hx]))]

theorem dropWhile_head_false {p : Char → Bool} (c : Char) (cs : List Char) (h : p c = false) :
    (c :: cs).dropWhile p = c :: cs := by
  simp [List.dropWhile_cons, h]

theorem jsParseInt_digits (l : List Char) (hne : l ≠ []) (hd : ∀ c ∈ l, isDigitChar c = true) :
    jsParseInt l = some ⟨(decVal l : Int), 1⟩ := by
  cases l with
  | nil => exact absurd rfl hne
  | cons c cs =>
    have hc := hd c (by simp)
    have hspec := digit_not_special c hc
    rw [jsParseInt, dropWhile_head_false c cs hspec.2.2.2.2]
    simp only [hspec.2.2.1, hspec.2.2.2.1, if_false]
    rw [parseDigitRun, takeWhile_all (c :: cs) hd]
    simp

theorem jsTrim_digits (l : List Char) (hd : ∀ c ∈ l, isDigitChar c = true) : jsTrim l = l := by
  have h1 : ∀ (m : List Char), (∀ c ∈ m, isDigitChar c = true) → m.dropWhile jsIsWhitespace = m := by
    intro m hm
    cases m with
    | nil => rfl
    | cons c cs => exact dropWhile_head_false c cs (digit_not_special c (hm c (by simp))).2.2.2.2
  rw [jsTrim, h1 l hd, h1 l.reverse (fun c hc => hd c (List.mem_reverse.1 hc)), List.reverse_reverse]

theorem jsNumberStr_digits (l : List Char) (hne : l ≠ []) (hd : ∀ c ∈ l, isDigitChar c = true) :
    jsNumberStr l = some ⟨(decVal l : Int), 1⟩ := by
  rw [jsNumberStr]
  rw [jsTrim_digits l hd]
  cases l with
  | nil => exact absurd rfl hne
  | cons c cs =>
    have hc := hd c (by simp)
    have hspec := digit_not_special c hc
    simp only [hspec.2.2.1, hspec.2.2.2.1, if_false]
    have : (c :: cs).all isDigitChar = true := List.all_eq_true.2 hd
    simp [this]

theorem jsParseInt_natToDec (n : Nat) : jsParseInt (natToDec n) = some ⟨(n : Int), 1⟩ := by
  rw [jsParseInt_digits (natToDec n) (natToDec_ne_nil n) (natToDec_digits n), decVal_natToDec]

theorem jsNumberStr_natToDec (n : Nat) : jsNumberStr (natToDec n) = some ⟨(n : Int), 1⟩ := by
  rw [jsNumberStr_digits (natToDec n) (natToDec_ne_nil n) (natToDec_digits n), decVal_natToDec]

theorem toUint32_lt (x : JSNum) : toUint32 x < 4294967296 := by
  cases x with
  | none => simp [toUint32]
  | some q => simp only [toUint32]; omega

theorem toUint32_int (i : Int) : toUint32 (some ⟨i, 1⟩) = (i % 4294967296).toNat := by
  simp [toUint32, jsTrunc]

theorem toUint32_jn (n : Nat) (h : n < 4294967296) : toUint32 (jn n) = n := by
  rw [jn, toUint32_int]
  omega

theorem toUint32_jn32signed (n : Nat) (h : n < 4294967296) : toUint32 (jn32signed n) = n := by
  rw [jn32signed, toUint32_int]
  split <;> omega

theorem ipAccum_toUint32 (x : JSNum) (o : List Char) (n : Nat)
    (ho : jsParseInt o = some ⟨(n : Int), 1⟩) :
    toUint32 (ipAccum x o) = (toUint32 x * 256 + n) % 4294967296 := by
  rw [ipAccum, jsShl8, ho, jn32signed]
  simp only [jsAdd, Nat.cast_one, mul_one, one_mul]
  rw [toUint32_int]
  split <;> omega

theorem quadStr_split (a b c d : Nat) :
    splitChar '.' (quadStr a b c d) = [natToDec a, natToDec b, natToDec c, natToDec d] := by
  have hnd : ∀ n : Nat, ∀ ch ∈ natToDec n, ¬ ch = '.' :=
    fun n ch hch => (digit_not_special ch (natToDec_digits n ch hch)).1
  rw [quadStr, splitChar_append '.' _ _ (hnd a), splitChar_append '.' _ _ (hnd b),
      splitChar_append '.' _ _ (hnd c), splitChar_sepFree '.' _ (hnd d)]

theorem ipToInt_quadStr (a b c d : Nat) (ha : a ≤ 255) (hb : b ≤ 255) (hc : c ≤ 255)
    (hd : d ≤ 255) : ipToInt (quadStr a b c d) = packIp a b c d := by
  rw [ipToInt, quadStr_split]
  simp only [List.foldl]
  rw [ipAccum_toUint32 _ _ d (jsParseInt_natToDec d), ipAccum_toUint32 _ _ c (jsParseInt_natToDec c),
      ipAccum_toUint32 _ _ b (jsParseInt_natToDec b), ipAccum_toUint32 _ _ a (jsParseInt_natToDec a),
      toUint32_jn 0 (by omega), packIp]
  omega

theorem intToIp_octets (x : JSNum) :
    intToIp x = quadStr (toUint32 x / 16777216 % 256) (toUint32 x / 65536 % 256)
      (toUint32 x / 256 % 256) (toUint32 x % 256) := rfl

theorem packIp_lt (a b c d : Nat) (ha : a ≤ 255) (hb : b ≤ 255) (hc : c ≤ 255) (hd : d ≤ 255) :
    packIp a b c d < 4294967296 := by
  rw [packIp]
  omega

theorem intToIp_packIp (a b c d : Nat) (ha : a ≤ 255) (hb : b ≤ 255) (hc : c ≤ 255)
    (hd : d ≤ 255) : intToIp (jn (packIp a b c d)) = quadStr a b c d := by
  rw [intToIp_octets, toUint32_jn (packIp a b c d) (packIp_lt a b c d ha hb hc hd)]
  have h1 : packIp a b c d / 16777216 % 256 = a := by rw [packIp]; omega
  have h2 : packIp a b c d / 65536 % 256 = b := by rw [packIp]; omega
  have h3 : packIp a b c d / 256 % 256 = c := by rw [packIp]; omega
  have h4 : packIp a b c d % 256 = d := by rw [packIp]; omega
  rw [h1, h2, h3, h4]

theorem ipToInt_intToIp (n : Nat) (h : n < 4294967296) : ipToInt (intToIp (jn n)) = n := by
  rw [intToIp_octets, toUint32_jn n h,
      ipToInt_quadStr _ _ _ _ (by omega) (by omega) (by omega) (by omega), packIp]
  omega

theorem ipToInt_lt (s : List Char) : ipToInt s < 4294967296 := toUint32_lt _

theorem quadStr_mem (a b c d : Nat) (ch : Char) (h : ch ∈ quadStr a b c d) :
    isDigitChar ch = true ∨ ch = '.' := by
  rw [quadStr] at h
  simp only [List.mem_append, List.mem_cons] at h
  rcases h with h | h | h | h | h | h | h
  · exact Or.inl (natToDec_digits a ch h)
  · exact Or.inr h
  · exact Or.inl (natToDec_digits b ch h)
  · exact Or.inr h
  · exact Or.inl (natToDec_digits c ch h)
  · exact Or.inr h
  · exact Or.inl (natToDec_digits d ch h)

theorem quadStr_noSlash (a b c d : Nat) : ∀ ch ∈ quadStr a b c d, ¬ ch = '/' := by
  intro ch h
  rcases quadStr_mem a b c d ch h with hd | hdot
  · exact (digit_not_special ch hd).2.1
  · subst hdot
    decide

theorem mask_eval (t : Nat) (h1 : 1 ≤ t) (h2 : t ≤ 4294967296) :
    jsUshr0 (jsNot (jsSub (some ⟨(t : Int), 1⟩) (jn 1))) = jn (4294967296 - t) := by
  have hsub : jsSub (some ⟨(t : Int), 1⟩) (jn 1) = some ⟨(t : Int) - 1, 1⟩ := by
    simp [jsSub, jn]
  rw [hsub]
  have htu : toUint32 (some ⟨(t : Int) - 1, 1⟩) = t - 1 := by
    rw [toUint32_int]
    omega
  rw [jsNot, htu, jsUshr0, toUint32_jn32signed (4294967295 - (t - 1)) (by omega)]
  congr 1
  omega

theorem pow_sub_eval (p : Nat) (hp : p ≤ 32) :
    jsPow (jn 2) (jsSub (jn 32) (jsNumberOf (some (natToDec p))))
      = some ⟨((2 ^ (32 - p) : Nat) : Int), 1⟩ := by
  have hnum : jsNumberOf (some (natToDec p)) = some ⟨(p : Int), 1⟩ := jsNumberStr_natToDec p
  rw [hnum]
  have hsub : jsSub (jn 32) (some ⟨(p : Int), 1⟩) = some ⟨32 - (p : Int), 1⟩ := by
    simp [jsSub, jn]
  rw [hsub]
  have h0 : (0 : Int) ≤ 32 - (p : Int) := by omega
  have ht : ((32 : Int) - (p : Int)).toNat = 32 - p := by omega
  simp only [jsPow, jn, Nat.cast_one, Int.emod_one, if_pos, h0, if_true, Int.tdiv_one, ht,
    one_pow]
  norm_num [Nat.cast_pow]

theorem two_pow_le (p : Nat) (hp : p ≤ 32) : 2 ^ (32 - p) ≤ 4294967296 := by
  calc 2 ^ (32 - p) ≤ 2 ^ 32 := Nat.pow_le_pow_right (by omega) (by omega)
  _ = 4294967296 := by norm_num

theorem cidr_mask (p : Nat) (hp : p ≤ 32) :
    jsUshr0 (jsNot (jsSub (jsPow (jn 2) (jsSub (jn 32) (jsNumberOf (some (natToDec p))))) (jn 1)))
      = jn (4294967296 - 2 ^ (32 - p)) := by
  rw [pow_sub_eval p hp]
  exact mask_eval (2 ^ (32 - p)) Nat.one_le_two_pow (two_pow_le p hp)

theorem cidrToRange_quad (a b c d p : Nat) (ha : a ≤ 255) (hb : b ≤ 255) (hc : c ≤ 255)
    (hd : d ≤ 255) (hp : p ≤ 32) :
    cidrToRange (quadStr a b c d ++ '/' :: natToDec p) =
      (intToIp (jn (packIp a b c d &&& (4294967296 - 2 ^ (32 - p)))),
       intToIp (jn ((packIp a b c d &&& (4294967296 - 2 ^ (32 - p))) ||| (2 ^ (32 - p) - 1)))) := by
  have hsplit : splitChar '/' (quadStr a b c d ++ '/' :: natToDec p)
      = [quadStr a b c d, natToDec p] := by
    rw [splitChar_append '/' _ _ (quadStr_noSlash a b c d),
        splitChar_sepFree '/' _
          (fun ch hch => (digit_not_special ch (natToDec_digits p ch hch)).2.1)]
  have hip : ipToInt (quadStr a b c d) = packIp a b c d := ipToInt_quadStr a b c d ha hb hc hd
  have hpk1 : 1 ≤ 2 ^ (32 - p) := Nat.one_le_two_pow
  have hpk2 : 2 ^ (32 - p) ≤ 4294967296 := two_pow_le p hp
  have hlt : packIp a b c d < 4294967296 := packIp_lt a b c d ha hb hc hd
  have handlt : packIp a b c d &&& (4294967296 - 2 ^ (32 - p)) < 4294967296 :=
    Nat.lt_of_le_of_lt Nat.and_le_left hlt
  rw [cidrToRange]
  simp only [hsplit, List.headD, List.get?, hip]
  rw [cidr_mask p hp]
  have hmasklt : 4294967296 - 2 ^ (32 - p) < 4294967296 := by omega
  have hnet : jsAnd (jn (packIp a b c d)) (jn (4294967296 - 2 ^ (32 - p)))
      = jn32signed (packIp a b c d &&& (4294967296 - 2 ^ (32 - p))) := by
    rw [jsAnd, toUint32_jn _ hlt, toUint32_jn _ (by omega)]
  rw [hnet]
  have hnotmask : jsUshr0 (jsNot (jn (4294967296 - 2 ^ (32 - p)))) = jn (2 ^ (32 - p) - 1) := by
    rw [jsNot, toUint32_jn _ (by omega), jsUshr0,
        toUint32_jn32signed _ (by omega)]
    congr 1
    omega
  rw [hnotmask]
  have hor : jsOr (jn32signed (packIp a b c d &&& (4294967296 - 2 ^ (32 - p))))
      (jn (2 ^ (32 - p) - 1))
      = jn32signed ((packIp a b c d &&& (4294967296 - 2 ^ (32 - p))) ||| (2 ^ (32 - p) - 1)) := by
    rw [jsOr, toUint32_jn32signed _ handlt, toUint32_jn _ (by omega)]
  rw [hor]
  have hi1 : intToIp (jn32signed (packIp a b c d &&& (4294967296 - 2 ^ (32 - p))))
      = intToIp (jn (packIp a b c d &&& (4294967296 - 2 ^ (32 - p)))) := by
    rw [intToIp_octets, intToIp_octets, toUint32_jn32signed _ handlt, toUint32_jn _ handlt]
  have horlt : (packIp a b c d &&& (4294967296 - 2 ^ (32 - p))) ||| (2 ^ (32 - p) - 1)
      < 4294967296 := by
    have := Nat.or_lt_two_pow (n := 32)
      (by norm_num [handlt] : packIp a b c d &&& (4294967296 - 2 ^ (32 - p)) < 2 ^ 32)
      (by norm_num; omega : 2 ^ (32 - p) - 1 < 2 ^ 32)
    norm_num at this
    exact this
  have hi2 : intToIp (jn32signed ((packIp a b c d &&& (4294967296 - 2 ^ (32 - p)))
        ||| (2 ^ (32 - p) - 1)))
      = intToIp (jn ((packIp a b c d &&& (4294967296 - 2 ^ (32 - p))) ||| (2 ^ (32 - p) - 1))) := by
    rw [intToIp_octets, intToIp_octets, toUint32_jn32signed _ horlt, toUint32_jn _ horlt]
  rw [hi1, hi2]

theorem nat_le_or_left (n m : Nat) : n ≤ n ||| m := by
  apply Nat.le_of_testBit
  intro i h
  simp [Nat.testBit_or, h]

/-- C4: for every valid dotted-quad IPv4 string (four dot-separated
decimal octets each in 0-255, in canonical form — exactly the strings
`quadStr a b c d` with all octets ≤ 255), `intToIp (ipToInt ip) = ip`. -/
theorem C4_ip_roundtrip (a b c d : Nat) (ha : a ≤ 255) (hb : b ≤ 255) (hc : c ≤ 255)
    (hd : d ≤ 255) :
    intToIp (jn (ipToInt (quadStr a b c d))) = quadStr a b c d := by
  rw [ipToInt_quadStr a b c d ha hb hc hd, intToIp_packIp a b c d ha hb hc hd]

/-- Witness for C4 at 192.168.1.1. -/
theorem C4_witness :
    (192 : Nat) ≤ 255 ∧ intToIp (jn (ipToInt (quadStr 192 168 1 1))) = quadStr 192 168 1 1 :=
  ⟨by decide, C4_ip_roundtrip 192 168 1 1 (by decide) (by decide) (by decide) (by decide)⟩

/-- C5: for every well-formed IPv4 address, prefix 0 yields the full range
0.0.0.0 – 255.255.255.255, and prefix 32 yields network = broadcast = the
given address. -/
theorem C5_cidr_edges (a b c d : Nat) (ha : a ≤ 255) (hb : b ≤ 255) (hc : c ≤ 255)
    (hd : d ≤ 255) :
    cidrToRange (quadStr a b c d ++ chars "/0") = (chars "0.0.0.0", chars "255.255.255.255") ∧
    cidrToRange (quadStr a b c d ++ chars "/32") = (quadStr a b c d, quadStr a b c d) := by
  have hlt := packIp_lt a b c d ha hb hc hd
  constructor
  · have h0 : chars "/0" = '/' :: natToDec 0 := by decide
    rw [h0, cidrToRange_quad a b c d 0 ha hb hc hd (by omega)]
    norm_num
    decide
  · have h32 : chars "/32" = '/' :: natToDec 32 := by decide
    rw [h32, cidrToRange_quad a b c d 32 ha hb hc hd (by omega)]
    norm_num
    have hall : packIp a b c d &&& 4294967295 = packIp a b c d := by
      have h := Nat.and_pow_two_sub_one_eq_mod (packIp a b c d) 32
      norm_num at h
      rw [h]
      exact Nat.mod_eq_of_lt hlt
    rw [hall, intToIp_packIp a b c d ha hb hc hd]

/-- Witness for C5 at 10.0.0.5 (the spec's own example address). -/
theorem C5_witness :
    (10 : Nat) ≤ 255 ∧
    (cidrToRange (quadStr 10 0 0 5 ++ chars "/0") = (chars "0.0.0.0", chars "255.255.255.255") ∧
     cidrToRange (quadStr 10 0 0 5 ++ chars "/32") = (quadStr 10 0 0 5, quadStr 10 0 0 5)) :=
  ⟨by decide, C5_cidr_edges 10 0 0 5 (by decide) (by decide) (by decide) (by decide)⟩

/-- C6: for every well-formed IPv4 string and well-formed CIDR string with
prefix in [0,32], `ipInCidr ip cidr` is true iff `ipToInt ip` lies in the
inclusive range `[ipToInt network, ipToInt broadcast]` where
`(network, broadcast) = cidrToRange cidr`. -/
theorem C6_ipInCidr_iff (a b c d e f g h p : Nat)
    (ha : a ≤ 255) (hb : b ≤ 255) (hc : c ≤ 255) (hd : d ≤ 255)
    (he : e ≤ 255) (hf : f ≤ 255) (hg : g ≤ 255) (hh : h ≤ 255) (hp : p ≤ 32) :
    ipInCidr (quadStr a b c d) (quadStr e f g h ++ '/' :: natToDec p) = true ↔
      (ipToInt (cidrToRange (quadStr e f g h ++ '/' :: natToDec p)).1
          ≤ ipToInt (quadStr a b c d) ∧
       ipToInt (quadStr a b c d)
          ≤ ipToInt (cidrToRange (quadStr e f g h ++ '/' :: natToDec p)).2) := by
  rw [ipInCidr]
  simp [Bool.and_eq_true, decide_eq_true_eq]

/-- Witness for C6: 192.168.1.42 against 192.168.1.0/24. -/
theorem C6_witness :
    (42 : Nat) ≤ 255 ∧
    (ipInCidr (quadStr 192 168 1 42) (quadStr 192 168 1 0 ++ '/' :: natToDec 24) = true ↔
      (ipToInt (cidrToRange (quadStr 192 168 1 0 ++ '/' :: natToDec 24)).1
          ≤ ipToInt (quadStr 192 168 1 42) ∧
       ipToInt (quadStr 192 168 1 42)
          ≤ ipToInt (cidrToRange (quadStr 192 168 1 0 ++ '/' :: natToDec 24)).2)) :=
  ⟨by decide, C6_ipInCidr_iff 192 168 1 42 192 168 1 0 24 (by decide) (by decide) (by decide)
    (by decide) (by decide) (by decide) (by decide) (by decide) (by decide)⟩

/-- C7: for every well-formed CIDR block with prefix in [0,32], the
derived network address is ≤ the derived broadcast address as unsigned
32-bit integers. -/
theorem C7_network_le_broadcast (a b c d p : Nat)
    (ha : a ≤ 255) (hb : b ≤ 255) (hc : c ≤ 255) (hd : d ≤ 255) (hp : p ≤ 32) :
    ipToInt (cidrToRange (quadStr a b c d ++ '/' :: natToDec p)).1
      ≤ ipToInt (cidrToRange (quadStr a b c d ++ '/' :: natToDec p)).2 := by
  have hlt := packIp_lt a b c d ha hb hc hd
  have handlt : packIp a b c d &&& (4294967296 - 2 ^ (32 - p)) < 4294967296 :=
    Nat.lt_of_le_of_lt Nat.and_le_left hlt
  have hpk1 : 1 ≤ 2 ^ (32 - p) := Nat.one_le_two_pow
  have hpk2 := two_pow_le p hp
  have horlt : (packIp a b c d &&& (4294967296 - 2 ^ (32 - p))) ||| (2 ^ (32 - p) - 1)
      < 4294967296 := by
    have h2 := Nat.or_lt_two_pow (n := 32)
      (by norm_num [handlt] : packIp a b c d &&& (4294967296 - 2 ^ (32 - p)) < 2 ^ 32)
      (by norm_num; omega : 2 ^ (32 - p) - 1 < 2 ^ 32)
    norm_num at h2
    exact h2
  rw [cidrToRange_quad a b c d p ha hb hc hd hp]
  dsimp only
  rw [ipToInt_intToIp _ handlt, ipToInt_intToIp _ horlt]
  exact nat_le_or_left _ _

/-- Witness for C7 at 192.168.1.0/24. -/
theorem C7_witness :
    (24 : Nat) ≤ 32 ∧
    ipToInt (cidrToRange (quadStr 192 168 1 0 ++ '/' :: natToDec 24)).1
      ≤ ipToInt (cidrToRange (quadStr 192 168 1 0 ++ '/' :: natToDec 24)).2 :=
  ⟨by decide, C7_network_le_broadcast 192 168 1 0 24 (by decide) (by decide) (by decide)
    (by decide) (by decide)⟩

/-- C10: `ipToInt` is total over arbitrary strings and always yields an
unsigned 32-bit integer; strings with no numeric octets, such as
"a.b.c.d" and "", map to 0 — the integer form of "0.0.0.0" — rather than
being rejected. -/
theorem C10_ipToInt_total :
    (∀ s : List Char, ipToInt s < 4294967296) ∧
    ipToInt (chars "a.b.c.d") = 0 ∧ ipToInt (chars "") = 0 ∧ ipToInt (chars "0.0.0.0") = 0 :=
  ⟨fun s => ipToInt_lt s, by decide, by decide, by decide⟩

theorem levelIndexOf_levelStr (lv : Level) : levelIndexOf (.str (levelStr lv)) = some lv := by
  cases lv <;> rfl

/-- C2: for every valid log request (level one of debug/info/warn/error,
non-empty string message, non-empty non-array object data), the handler
emits exactly one log record, to the sink selected by the level, carrying
the message and the data flattened to an alternating key/value sequence,
and responds 201 with an empty body. -/
theorem C2_log_success (json : JSValue) (lv : Level) (msg : List Char)
    (fields : List (List Char × JSValue))
    (hlevel : json.getField (chars "level") = .str (levelStr lv))
    (hmsg : json.getField (chars "message") = .str msg) (hmsgne : msg ≠ [])
    (hdata : json.getField (chars "data") = .obj fields) (hfne : fields ≠ []) :
    logsHandler json = ⟨.noContent 201, [⟨lv, .str msg, logFlat fields⟩]⟩ := by
  rw [logsHandler, hlevel, hmsg, hdata, levelIndexOf_levelStr]
  have h1 : msg.isEmpty = false := by
    cases msg with
    | nil => exact absurd rfl hmsgne
    | cons x xs => rfl
  have h2 : (fields.length == 0) = false := by
    cases fields with
    | nil => exact absurd rfl hfne
    | cons x xs => rfl
  simp [jsTruthy, jsTypeof, jsIsArray, objEntries, h1, h2]

/-- Witness for C2: the spec's example
`{level:"error", message:"m", data:{a:1,b:2}}`. -/
theorem C2_witness :
    c2Json.getField (chars "level") = .str (levelStr .error) ∧
    logsHandler c2Json = ⟨.noContent 201, [⟨.error, .str (chars "m"),
      logFlat [(chars "a", .num (some ⟨1, 1⟩)), (chars "b", .num (some ⟨2, 1⟩))]⟩]⟩ :=
  ⟨rfl, C2_log_success c2Json .error (chars "m") _ rfl rfl (by decide) rfl
    (List.cons_ne_nil _ _)⟩

/-- C3: for every log request (object body) whose level is none of
debug/info/warn/error, the handler returns the level validation error and
emits nothing to any sink, regardless of the message and data fields. -/
theorem C3_log_bad_level (json : JSValue) (fs : List (List Char × JSValue))
    (hobj : json = .obj fs)
    (hbad : ∀ lv : Level, json.getField (chars "level") ≠ .str (levelStr lv)) :
    logsHandler json =
      ⟨.badRequest (chars "Log level must be one of: debug, info, warn, error.")
        (json.getField (chars "level")), []⟩ := by
  have hnone : levelIndexOf (json.getField (chars "level")) = none := by
    cases hv : json.getField (chars "level") with
    | str s =>
      have hd := hbad .debug
      have hi := hbad .info
      have hw := hbad .warn
      have he := hbad .error
      rw [hv] at hd hi hw he
      have hsd : (s == chars "debug") = false := by
        rw [beq_eq_false_iff_ne]
        intro hEq
        exact hd (by rw [hEq]; rfl)
      have hsi : (s == chars "info") = false := by
        rw [beq_eq_false_iff_ne]
        intro hEq
        exact hi (by rw [hEq]; rfl)
      have hsw : (s == chars "warn") = false := by
        rw [beq_eq_false_iff_ne]
        intro hEq
        exact hw (by rw [hEq]; rfl)
      have hse : (s == chars "error") = false := by
        rw [beq_eq_false_iff_ne]
        intro hEq
        exact he (by rw [hEq]; rfl)
      simp [levelIndexOf, hsd, hsi, hsw, hse]
    | undefined => rfl
    | null => rfl
    | bool b => rfl
    | num n => rfl
    | arr l => rfl
    | obj o => rfl
  rw [logsHandler, hnone]
  simp

/-- Witness for C3: the spec's example `{level:"trace", message:"hi",
data:{a:1}}`. -/
theorem C3_witness :
    (∀ lv : Level, c3Json.getField (chars "level") ≠ .str (levelStr lv)) ∧
    logsHandler c3Json =
      ⟨.badRequest (chars "Log level must be one of: debug, info, warn, error.")
        (c3Json.getField (chars "level")), []⟩ := by
  have hbad : ∀ lv : Level, c3Json.getField (chars "level") ≠ .str (levelStr lv) := by
    intro lv h
    rw [show c3Json.getField (chars "level") = .str (chars "trace") from rfl] at h
    have h2 := JSValue.str.inj h
    cases lv <;> exact absurd h2 (by decide)
  exact ⟨hbad, C3_log_bad_level c3Json _ rfl hbad⟩

/-- C8: for every auth-with-ip request with valid body fields, if the
named collection is missing or is not auth-capable, the main handler
returns the same not-found error in both cases, for every environment —
in particular regardless of whether the identity matches any record. -/
theorem C8_collection_notFound (env : AuthEnv) (req : AuthRequest)
    (hid : jsTruthy (bodyIdentity req.body) = true)
    (hidt : jsTypeof (bodyIdentity req.body) = chars "string")
    (hidf : jsTypeof (bodyIdentityField req.body) = chars "string")
    (hipf : jsTypeof (bodyIpsField req.body) = chars "string") :
    (env.findCollection req.pathCollection = none →
      (authHandlerMain env req).1
        = .notFound (chars "Missing or invalid auth collection context.")) ∧
    (∀ col, env.findCollection req.pathCollection = some col → col.isAuth = false →
      (authHandlerMain env req).1
        = .notFound (chars "Missing or invalid auth collection context.")) := by
  constructor
  · intro hcol
    rw [authHandlerMain, hcol]
    simp [hid, hidt, hidf, hipf]
  · intro col hcol hauth
    rw [authHandlerMain, hcol]
    simp [hid, hidt, hidf, hipf, hauth]

/-- Witness for C8: a body with identity `alice@example.com` against an
environment with no collections, and against one whose `users` collection
is not auth-capable. -/
theorem C8_witness :
    jsTruthy (bodyIdentity c8Req.body) = true ∧
    (authHandlerMain c8EnvMissing c8Req).1
      = .notFound (chars "Missing or invalid auth collection context.") ∧
    (authHandlerMain c8EnvNonAuth c8Req).1
      = .notFound (chars "Missing or invalid auth collection context.") := by
  refine ⟨rfl, ?_, ?_⟩
  · exact (C8_collection_notFound c8EnvMissing c8Req rfl rfl rfl rfl).1 rfl
  · exact (C8_collection_notFound c8EnvNonAuth c8Req rfl rfl rfl rfl).2
      ⟨false, [chars "email", chars "ips"]⟩ rfl rfl

/-- C9: for every environment and request, each auth-with-ip handler
variant issues a session if and only if it returns the success response:
every run ending in a validation, not-found or unauthorized error (or an
escaped exception) performs no session issuance, and the modelled host
calls — the only collaborator touch points in the source — include no
operation that creates, mutates or deletes a record or collection. -/
theorem C9_no_session_until_success (env : AuthEnv) (req : AuthRequest) :
    (sessionsIssued (authHandlerMain env req).2
        = if (authHandlerMain env req).1.isSuccess then 1 else 0) ∧
    (sessionsIssued (authHandlerStrict env req).2
        = if (authHandlerStrict env req).1.isSuccess then 1 else 0) := by
  constructor
  · rw [authHandlerMain]
    repeat' split
    all_goals
      simp_all [sessionsIssued, AuthResponse.isSuccess, List.countP_cons, List.countP_nil]
  · rw [authHandlerStrict]
    repeat' split
    all_goals
      simp_all [sessionsIssued, AuthResponse.isSuccess, List.countP_cons, List.countP_nil]

theorem scanStrict_badEntry (rip : List Char) (pre rest : List JSValue) (bad : JSValue)
    (hbad : ∀ s, bad ≠ JSValue.str s) :
    (∀ w ∈ pre, entryMatches rip w = false ∧ ∃ s, w = JSValue.str s) →
    scanStrict rip (pre ++ bad :: rest) = .badEntry bad := by
  induction pre with
  | nil =>
    intro _
    cases bad with
    | str s => exact absurd rfl (hbad s)
    | undefined => rfl
    | null => rfl
    | bool b => rfl
    | num q => rfl
    | arr xs => rfl
    | obj fs => rfl
  | cons w ws ih =>
    intro hpre
    obtain ⟨hm, s, hw⟩ := hpre w (List.mem_cons_self w ws)
    subst hw
    rw [List.cons_append]
    simp only [scanStrict]
    simp only [entryMatches] at hm
    rw [hm]
    simp only [Bool.false_eq_true, if_false]
    exact ih (fun x hx => hpre x (List.mem_cons_of_mem _ hx))

/-- C1 (amended): in the stricter utils.js variant, for every request that
reaches the allow-list scan, if an entry examined before any match is not
a string, the handler returns the unauthorized error naming that entry
(fail closed) — it neither skips the entry nor surfaces a raw host
exception.  (The main.pb.js variant has no such guarantee; see the
counterexample.) -/
theorem C1_strict_fail_closed (env : AuthEnv) (req : AuthRequest) (col : PbCollection)
    (record : PbRecord) (pre rest : List JSValue) (bad : JSValue)
    (hid : jsTruthy (bodyIdentity req.body) = true)
    (hidt : jsTypeof (bodyIdentity req.body) = chars "string")
    (hidf : jsTypeof (bodyIdentityField req.body) = chars "string")
    (hipf : jsTypeof (bodyIpsField req.body) = chars "string")
    (hcol : env.findCollection req.pathCollection = some col)
    (hauth : col.isAuth = true)
    (hf1 : (col.fields.any fun f => fieldMatches f (bodyIdentityField req.body)) = true)
    (hf2 : (col.fields.any fun f => fieldMatches f (bodyIpsField req.body)) = true)
    (hrec : env.findRecord col (bodyIdentityField req.body) (bodyIdentity req.body)
      = some record)
    (hips : jsonParse (record.getString (bodyIpsField req.body))
      = some (.arr (pre ++ bad :: rest)))
    (hpre : ∀ w ∈ pre, entryMatches env.realIP w = false ∧ ∃ s, w = JSValue.str s)
    (hbad : ∀ s, bad ≠ JSValue.str s) :
    (authHandlerStrict env req).1
      = .unauthorized (chars "Invalid IP address on the record.") bad := by
  have hscan := scanStrict_badEntry env.realIP pre rest bad hbad hpre
  rw [authHandlerStrict]
  simp [hid, hidt, hidf, hipf, hcol, hauth, hf1, hf2, hrec, hips, hscan]

/-- Witness for C1 (amended): the strict handler, a record whose stored
allow list is the JSON text `[5]`. -/
theorem C1_witness :
    jsonParse (c1sRecord.getString (bodyIpsField c1sReq.body))
      = some (.arr ([] ++ JSValue.num (some ⟨5, 1⟩) :: [])) ∧
    (authHandlerStrict c1sEnv c1sReq).1
      = .unauthorized (chars "Invalid IP address on the record.") (.num (some ⟨5, 1⟩)) := by
  refine ⟨rfl, ?_⟩
  exact C1_strict_fail_closed c1sEnv c1sReq demoCollection c1sRecord [] [] (.num (some ⟨5, 1⟩))
    rfl rfl rfl rfl rfl rfl rfl rfl rfl rfl
    (fun w hw => absurd hw (List.not_mem_nil w))
    (fun s h => JSValue.noConfusion h)

/-- Counterexample to C1 as stated: in the main.pb.js variant, a request
whose record's allow list holds a non-string first entry (an empty array)
followed by the caller's exact address is answered with success, not with
an unauthorized error — the non-string entry examined before the match
was silently skipped. -/
theorem C1_counterexample :
    c1Record.get (bodyIpsField c1Req.body) = .arr [.arr [], .str (chars "1.2.3.4")] ∧
    (authHandlerMain c1Env c1Req).1.isUnauthorized = false ∧
    (authHandlerMain c1Env c1Req).1.isSuccess = true :=
  ⟨rfl, rfl, rfl⟩
